import Mathlib

/-!
Verification of the recruiters-scoring pipeline (src/recruiters-scoring.js).

The JavaScript source is shallowly embedded as follows:
* JS numbers used by the score arithmetic are modelled by `JFloat`
  (a finite real, `+Infinity`, `-Infinity`, or `NaN`); the only
  operations the source performs on them (`/`, `+`, `Math.max`,
  `Math.round`) are given their IEEE/JS semantics on that type.
* MongoDB documents returned by `user.save()` and the `results`
  object built by `computeRecruitersScore` are modelled as `JSObj`,
  an association list from field names to natural-number counts;
  reading an absent field yields `none` (JS `undefined`), and the
  `|| 0` idiom is `orZero`.
* The submission store is a `List Submission`; the aggregation
  pipeline of `retrieveRecruitersSubmissions` is split into the
  window/`ExpertReviewed`/`inevitable` filter (`windowFilter`),
  the per-job grouping (`jobTotal`/`jobPass`/`subsPerJobs`) and the
  per-(recruiter, job) grouping sorted by recruiter (`agentJobStream`).
* The `do … while` cursor loop of `computeRecruitersScore` is the
  structural recursion `scoringFold`; JS `undefined` (for the
  cursor's terminal `null` and the initial `lastRecruiter`) is
  `Option.none`, and a thrown `TypeError` (property access on
  `undefined`) is `Except.error "TypeError"`.
* The budget store (`Preference`) is external to the file under
  verification, so it is a parameter `Env`: `pref` models
  `Preference.findOne` and `save` models `user.save()` together
  with the object the save resolves with; `none` models a missing
  record resp. a rejected save (both are caught in the source and
  turned into an `undefined` result).
-/

/-! ### JS objects (field → count association lists) -/

/-- A JS object holding numeric fields, as an association list. -/
abbrev JSObj := List (String × Nat)

/-- Reading a field of a JS object: `none` is JS `undefined`. -/
def getF (o : JSObj) (k : String) : Option Nat := o.lookup k

/-- The `x || 0` idiom applied to a possibly-absent numeric field. -/
def orZero (x : Option Nat) : Nat := x.getD 0

/-! ### JS numbers -/

/-- A JS (IEEE double) value as used by the score arithmetic:
a finite real, `+Infinity`, `-Infinity` or `NaN`. -/
inductive JFloat where
  | fin : ℝ → JFloat
  | inf : JFloat
  | ninf : JFloat
  | nan : JFloat

/-- JS division restricted to the shapes the source produces:
a finite numerator divided by a finite nonnegative denominator
(`Math.sqrt` output or a cast count). Division by (positive) zero
follows IEEE: `+∞`, `-∞` or `NaN` according to the numerator's sign. -/
noncomputable def jdiv : JFloat → JFloat → JFloat
  | .fin a, .fin b =>
    if b = 0 then (if 0 < a then .inf else if a < 0 then .ninf else .nan)
    else .fin (a / b)
  | .nan, _ => .nan
  | _, .nan => .nan
  | .inf, .inf => .nan
  | .inf, .ninf => .nan
  | .ninf, .inf => .nan
  | .ninf, .ninf => .nan
  | .inf, _ => .inf
  | .ninf, _ => .ninf
  | _, .inf => .fin 0
  | _, .ninf => .fin 0

/-- JS addition on the values reaching `maxSlots + score`. -/
def jadd : JFloat → JFloat → JFloat
  | .fin a, .fin b => .fin (a + b)
  | .nan, _ => .nan
  | _, .nan => .nan
  | .inf, .ninf => .nan
  | .ninf, .inf => .nan
  | .inf, _ => .inf
  | _, .inf => .inf
  | .ninf, _ => .ninf
  | _, .ninf => .ninf

/-- JS `Math.max` on two values (`NaN` is absorbing, as in JS). -/
noncomputable def jmax : JFloat → JFloat → JFloat
  | .nan, _ => .nan
  | _, .nan => .nan
  | .inf, _ => .inf
  | _, .inf => .inf
  | .ninf, b => b
  | a, .ninf => a
  | .fin a, .fin b => .fin (max a b)

/-- JS `Math.round` on a finite value: round half toward `+∞`. -/
noncomputable def jsRound (x : ℝ) : ℤ := ⌊x + 1 / 2⌋

/-- JS `Math.round` on a JS number (`±∞` and `NaN` round to themselves). -/
noncomputable def jsRoundF : JFloat → JFloat
  | .fin x => .fin ((jsRound x : ℤ) : ℝ)
  | .inf => .inf
  | .ninf => .ninf
  | .nan => .nan

/-! ### Constants of the source -/

def WINDOW_WEEKS : ℤ := 1

def GROWTH_FACTOR : ℝ := 10

def DIMINISHING_FACTOR : ℝ := 2

/-- The window lower bound: `moment(now).subtract(1, 'weeks')`,
with time measured in milliseconds. -/
def windowFrom (now : ℤ) : ℤ := now - WINDOW_WEEKS * (7 * 24 * 60 * 60 * 1000)

/-! ### The score transform (lines 111-120 of the source) -/

/-- The rounded score exactly as `computeAndSaveScore` computes it,
with full JS semantics (in particular at `totalSubmissions = 0`,
where the source performs an IEEE division by zero):
`if (points > 0) score = GROWTH_FACTOR * points / Math.sqrt(totalSubmissions);`
`else score = - DIMINISHING_FACTOR * Math.pow(points, 2) / totalSubmissions;`
`score = Math.round(score);` -/
noncomputable def computeScoreJ (totalSubmissions : ℕ) (points : ℚ) : JFloat :=
  jsRoundF
    (if 0 < points then
      jdiv (.fin (GROWTH_FACTOR * (points : ℝ))) (.fin (Real.sqrt (totalSubmissions : ℝ)))
    else
      jdiv (.fin (-DIMINISHING_FACTOR * (points : ℝ) ^ 2)) (.fin (totalSubmissions : ℝ)))

/-- The raw (unrounded) score on the nonzero-volume domain, as a real. -/
noncomputable def rawScore (totalSubmissions : ℕ) (points : ℚ) : ℝ :=
  if 0 < points then GROWTH_FACTOR * (points : ℝ) / Real.sqrt (totalSubmissions : ℝ)
  else -DIMINISHING_FACTOR * (points : ℝ) ^ 2 / (totalSubmissions : ℝ)

/-- The integer score on the nonzero-volume domain. -/
noncomputable def scoreZ (totalSubmissions : ℕ) (points : ℚ) : ℤ :=
  jsRound (rawScore totalSubmissions points)

/-- On nonzero volume the JS computation produces exactly the finite
integer score `scoreZ`. -/
theorem computeScoreJ_eq_fin (t : ℕ) (p : ℚ) (ht : 0 < t) :
    computeScoreJ t p = .fin ((scoreZ t p : ℤ) : ℝ) := by
  have htR : (0 : ℝ) < (t : ℝ) := by exact_mod_cast ht
  have hsqrt : Real.sqrt (t : ℝ) ≠ 0 := by
    rw [Real.sqrt_ne_zero']; exact htR
  unfold computeScoreJ scoreZ rawScore
  by_cases hp : 0 < p
  · simp [hp, jdiv, hsqrt, jsRoundF]
  · simp [hp, jdiv, ne_of_gt htR, jsRoundF]

/-! ### The budget store and `computeAndSaveScore` (lines 111-136) -/

/-- The external `Preference` store: `pref` is `Preference.findOne`
(`none` = record absent or read failure), `save` is the persistence
write of the new `maxSlots` value, returning the object the save
resolves with (`none` = the save rejected; the source catches this). -/
structure Env where
  pref : ℕ → Option ℤ
  save : ℕ → JFloat → Option JSObj

/-- `computeAndSaveScore`: computes the score, reads the agent's
budget record, and if present writes back
`maxSlots = Math.max(1, maxSlots + score)`.  A missing record
(logged `user not found`) and a caught persistence error both make
the promise resolve with `undefined` (`none`). The source contains
no throwing path: the result type is `Option`, not an exception. -/
noncomputable def computeAndSaveScore (env : Env) (recruiterId : ℕ)
    (totalSubmissions : ℕ) (points : ℚ) : Option JSObj :=
  match env.pref recruiterId with
  | some maxSlots =>
    env.save recruiterId
      (jmax (.fin 1) (jadd (.fin (maxSlots : ℝ)) (computeScoreJ totalSubmissions points)))
  | none => none

/-! ### Concrete instances used by witnesses and counterexamples -/

/-- A write outcome reporting one of each counter kind. -/
def outcomeOne : JSObj :=
  [("insertedCount", 1), ("matchedCount", 1), ("modifiedCount", 1),
   ("deletedCount", 1), ("upsertedCount", 1)]

/-- An environment where every agent has a budget record with
`maxSlots = 5` and every save succeeds, reporting `outcomeOne`. -/
def envOk : Env := ⟨fun _ => some 5, fun _ _ => some outcomeOne⟩

/-- An environment whose budget records all carry `maxSlots = 1`
and whose saves succeed with an empty result object. -/
def envFloor : Env := ⟨fun _ => some 1, fun _ _ => some []⟩

/-! ### Monotonicity of the raw score -/

/-- For fixed nonzero volume the raw score is monotone in the points. -/
theorem rawScore_mono (t : ℕ) (ht : 0 < t) {p₁ p₂ : ℚ} (h : p₁ ≤ p₂) :
    rawScore t p₁ ≤ rawScore t p₂ := by
  have htR : (0 : ℝ) < (t : ℝ) := by exact_mod_cast ht
  have hsq : 0 < Real.sqrt (t : ℝ) := Real.sqrt_pos.mpr htR
  have hR : (p₁ : ℝ) ≤ (p₂ : ℝ) := by exact_mod_cast h
  unfold rawScore
  by_cases h1 : 0 < p₁
  · have h2 : 0 < p₂ := lt_of_lt_of_le h1 h
    rw [if_pos h1, if_pos h2]
    have : GROWTH_FACTOR * (p₁ : ℝ) ≤ GROWTH_FACTOR * (p₂ : ℝ) := by
      have hg : (0 : ℝ) ≤ GROWTH_FACTOR := by norm_num [GROWTH_FACTOR]
      exact mul_le_mul_of_nonneg_left hR hg
    exact div_le_div_of_nonneg_right this hsq.le |>.trans_eq rfl
  · by_cases h2 : 0 < p₂
    · rw [if_neg h1, if_pos h2]
      have hleft : -DIMINISHING_FACTOR * (p₁ : ℝ) ^ 2 / (t : ℝ) ≤ 0 := by
        apply div_nonpos_of_nonpos_of_nonneg _ (le_of_lt htR)
        have := sq_nonneg ((p₁ : ℝ))
        norm_num [DIMINISHING_FACTOR]
        nlinarith
      have hright : 0 ≤ GROWTH_FACTOR * (p₂ : ℝ) / Real.sqrt (t : ℝ) := by
        apply div_nonneg _ (le_of_lt hsq)
        have hp2 : (0 : ℝ) ≤ (p₂ : ℝ) := by exact_mod_cast le_of_lt h2
        norm_num [GROWTH_FACTOR]
        linarith
      linarith
    · rw [if_neg h1, if_neg h2]
      have hp1 : (p₁ : ℝ) ≤ 0 := by exact_mod_cast not_lt.mp h1
      have hp2 : (p₂ : ℝ) ≤ 0 := by exact_mod_cast not_lt.mp h2
      have hsq' : (p₂ : ℝ) ^ 2 ≤ (p₁ : ℝ) ^ 2 := by nlinarith
      have hnum : -DIMINISHING_FACTOR * (p₁ : ℝ) ^ 2 ≤ -DIMINISHING_FACTOR * (p₂ : ℝ) ^ 2 := by
        norm_num [DIMINISHING_FACTOR]
        linarith
      exact div_le_div_of_nonneg_right hnum htR.le |>.trans_eq rfl

/-- C7: for every fixed `totalSubmissions > 0` and every pair
`netPoints₁ ≤ netPoints₂`, the integer score is non-decreasing:
`score(t, p₁) ≤ score(t, p₂)`, across both branches of the
transform, and the JS computation realizes exactly these integer
scores as finite values. -/
theorem score_monotone_in_points (t : ℕ) (p₁ p₂ : ℚ) (ht : 0 < t) (hp : p₁ ≤ p₂) :
    scoreZ t p₁ ≤ scoreZ t p₂ ∧
    computeScoreJ t p₁ = .fin ((scoreZ t p₁ : ℤ) : ℝ) ∧
    computeScoreJ t p₂ = .fin ((scoreZ t p₂ : ℤ) : ℝ) := by
  refine ⟨?_, computeScoreJ_eq_fin t p₁ ht, computeScoreJ_eq_fin t p₂ ht⟩
  unfold scoreZ jsRound
  exact Int.floor_mono (by linarith [rawScore_mono t ht hp])

/-- Witness for `score_monotone_in_points` at `t = 16`, `p₁ = -3`, `p₂ = 4`. -/
theorem score_monotone_in_points_witness :
    0 < 16 ∧ (-3 : ℚ) ≤ 4 ∧
    (scoreZ 16 (-3) ≤ scoreZ 16 4 ∧
     computeScoreJ 16 (-3) = .fin ((scoreZ 16 (-3) : ℤ) : ℝ) ∧
     computeScoreJ 16 4 = .fin ((scoreZ 16 4 : ℤ) : ℝ)) :=
  ⟨by norm_num, by norm_num, score_monotone_in_points 16 (-3) 4 (by norm_num) (by norm_num)⟩

/-- C6: for `totalSubmissions > 0` the JS computation yields the
finite integer `round(rawScore)` where `rawScore` follows the
positive branch `10·p/√t` when `netPoints > 0` and the penalty
branch `−2·p²/t` otherwise; in particular `t = 16, p = 4` scores 10. -/
theorem score_transform_spec (t : ℕ) (p : ℚ) (ht : 0 < t) :
    computeScoreJ t p = .fin ((scoreZ t p : ℤ) : ℝ) ∧
    (0 < p → scoreZ t p = jsRound (GROWTH_FACTOR * (p : ℝ) / Real.sqrt (t : ℝ))) ∧
    (p ≤ 0 → scoreZ t p = jsRound (-DIMINISHING_FACTOR * (p : ℝ) ^ 2 / (t : ℝ))) ∧
    scoreZ 16 4 = 10 := by
  refine ⟨computeScoreJ_eq_fin t p ht, ?_, ?_, ?_⟩
  · intro hp; unfold scoreZ rawScore; rw [if_pos hp]
  · intro hp; unfold scoreZ rawScore; rw [if_neg (not_lt.mpr hp)]
  · have h16 : Real.sqrt ((16 : ℕ) : ℝ) = 4 := by
      rw [show ((16 : ℕ) : ℝ) = (4 : ℝ) ^ 2 by norm_num]
      exact Real.sqrt_sq (by norm_num)
    unfold scoreZ rawScore jsRound
    rw [if_pos (by norm_num : (0 : ℚ) < 4), h16]
    rw [show GROWTH_FACTOR * ((4 : ℚ) : ℝ) / 4 + 1 / 2 = 21 / 2 by
      norm_num [GROWTH_FACTOR]]
    rw [Int.floor_eq_iff]
    norm_num

/-- Witness for `score_transform_spec` at `t = 16`, `p = 4`. -/
theorem score_transform_spec_witness :
    0 < 16 ∧
    computeScoreJ 16 4 = .fin ((scoreZ 16 4 : ℤ) : ℝ) ∧
    (0 : ℚ) < 4 ∧
    scoreZ 16 4 = jsRound (GROWTH_FACTOR * ((4 : ℚ) : ℝ) / Real.sqrt ((16 : ℕ) : ℝ)) ∧
    scoreZ 16 4 = 10 :=
  ⟨by norm_num, (score_transform_spec 16 4 (by norm_num)).1, by norm_num,
   (score_transform_spec 16 4 (by norm_num)).2.1 (by norm_num),
   (score_transform_spec 16 4 (by norm_num)).2.2.2⟩

/-- C3 (amended): `computeAndSaveScore` performs no zero-volume
check.  Invoked with `totalSubmissions = 0` it does not fail with
any error: the IEEE division by zero makes the score `+Infinity`
(points > 0), `-Infinity` (points < 0) or `NaN` (points = 0), and
the function proceeds to the budget read and write with that value. -/
theorem zero_volume_no_failure (p : ℚ) (env : Env) (r : ℕ) (m : ℤ) :
    (0 < p → computeScoreJ 0 p = .inf) ∧
    (p < 0 → computeScoreJ 0 p = .ninf) ∧
    (p = 0 → computeScoreJ 0 p = .nan) ∧
    (env.pref r = some m →
      computeAndSaveScore env r 0 p =
        env.save r (jmax (.fin 1) (jadd (.fin (m : ℝ)) (computeScoreJ 0 p)))) := by
  refine ⟨?_, ?_, ?_, ?_⟩
  · intro hp
    have hpR : (0 : ℝ) < GROWTH_FACTOR * (p : ℝ) := by
      have : (0 : ℝ) < (p : ℝ) := by exact_mod_cast hp
      norm_num [GROWTH_FACTOR]; linarith
    unfold computeScoreJ
    rw [if_pos hp]
    simp [jdiv, jsRoundF, Real.sqrt_zero, hpR]
  · intro hp
    have hp0 : (p : ℝ) ≠ 0 := by exact_mod_cast ne_of_lt hp
    have hpos : (0 : ℝ) < DIMINISHING_FACTOR * (p : ℝ) ^ 2 := by
      have : (0 : ℝ) < (p : ℝ) ^ 2 := by positivity
      norm_num [DIMINISHING_FACTOR]; linarith
    unfold computeScoreJ
    rw [if_neg (not_lt.mpr (le_of_lt hp))]
    simp [jdiv, jsRoundF, hpos, asymm hpos]
  · intro hp; subst hp
    unfold computeScoreJ
    simp [jdiv, jsRoundF]
  · intro hm
    unfold computeAndSaveScore
    rw [hm]

/-- Witness for `zero_volume_no_failure` at concrete points values
and the concrete environment `envOk`. -/
theorem zero_volume_no_failure_witness :
    ((0 : ℚ) < 1 ∧ computeScoreJ 0 1 = .inf) ∧
    ((-1 : ℚ) < 0 ∧ computeScoreJ 0 (-1) = .ninf) ∧
    computeScoreJ 0 0 = .nan ∧
    (envOk.pref 3 = some 5 ∧
      computeAndSaveScore envOk 3 0 2 =
        envOk.save 3 (jmax (.fin 1) (jadd (.fin ((5 : ℤ) : ℝ)) (computeScoreJ 0 2)))) :=
  ⟨⟨by norm_num, (zero_volume_no_failure 1 envOk 3 5).1 (by norm_num)⟩,
   ⟨by norm_num, (zero_volume_no_failure (-1) envOk 3 5).2.1 (by norm_num)⟩,
   (zero_volume_no_failure 0 envOk 3 5).2.2.1 rfl,
   ⟨rfl, (zero_volume_no_failure 2 envOk 3 5).2.2.2 rfl⟩⟩

/-- C3 counterexample: called with `totalSubmissions = 0` the
operation does not fail loudly — it completes, returning the save's
result, after computing the score `NaN`. -/
theorem zero_volume_counterexample :
    computeScoreJ 0 0 = .nan ∧ computeAndSaveScore envOk 3 0 0 = some outcomeOne := by
  constructor
  · unfold computeScoreJ
    simp [jdiv, jsRoundF]
  · rfl

/-- C8: applied to an existing budget record on nonzero volume, the
value written back is exactly `max(1, currentMaxSlots + score)`,
which is always at least 1. -/
theorem budget_floor_invariant (env : Env) (r : ℕ) (m : ℤ) (t : ℕ) (p : ℚ)
    (hm : env.pref r = some m) (ht : 0 < t) :
    computeAndSaveScore env r t p =
      env.save r (.fin ((max 1 (m + scoreZ t p) : ℤ) : ℝ)) ∧
    (1 : ℤ) ≤ max 1 (m + scoreZ t p) := by
  refine ⟨?_, le_max_left _ _⟩
  have hstep : computeAndSaveScore env r t p
      = env.save r (jmax (.fin 1) (jadd (.fin (m : ℝ)) (computeScoreJ t p))) := by
    unfold computeAndSaveScore
    rw [hm]
  rw [hstep, computeScoreJ_eq_fin t p ht]
  show env.save r (JFloat.fin (max 1 ((m : ℝ) + ((scoreZ t p : ℤ) : ℝ)))) = _
  congr 2
  push_cast
  rfl

/-- The penalty-branch score at `t = 1`, `p = -5` is exactly -50. -/
theorem scoreZ_one_negfive : scoreZ 1 (-5) = -50 := by
  unfold scoreZ rawScore jsRound
  rw [if_neg (by norm_num : ¬ (0 : ℚ) < -5)]
  rw [show -DIMINISHING_FACTOR * (((-5 : ℚ)) : ℝ) ^ 2 / ((1 : ℕ) : ℝ) + 1 / 2 = -99 / 2 by
    push_cast; norm_num [DIMINISHING_FACTOR]]
  rw [Int.floor_eq_iff]
  norm_num

/-- Witness for `budget_floor_invariant`: an agent whose budget is 1
receives score -50 and keeps `maxSlots = max(1, 1 - 50) = 1`. -/
theorem budget_floor_invariant_witness :
    envFloor.pref 9 = some 1 ∧ 0 < 1 ∧
    scoreZ 1 (-5) = -50 ∧
    max 1 (1 + scoreZ 1 (-5)) = 1 ∧
    (computeAndSaveScore envFloor 9 1 (-5) =
       envFloor.save 9 (.fin ((max 1 (1 + scoreZ 1 (-5)) : ℤ) : ℝ)) ∧
     (1 : ℤ) ≤ max 1 (1 + scoreZ 1 (-5))) :=
  ⟨rfl, by norm_num, scoreZ_one_negfive,
   by rw [scoreZ_one_negfive]; norm_num,
   budget_floor_invariant envFloor 9 1 1 (-5) rfl (by norm_num)⟩

/-! ### Submissions and the aggregation pipeline (lines 22-101) -/

/-- One entry of a submission's `history` array. -/
structure HistEvent where
  status : String
  atMs : ℤ
deriving DecidableEq

/-- The `review` subdocument; both fields may be absent (`none`). -/
structure Review where
  pass : Option Bool
  inevitable : Option Bool
deriving DecidableEq

/-- A candidate submission document. -/
structure Submission where
  job : ℕ
  recruiter : ℕ
  review : Review
  submittedAt : ℤ
  history : List HistEvent
deriving DecidableEq

/-- The per-event re-check of the `$filter` stage: status
`ExpertReviewed` and timestamp in the half-open window. -/
def isInWindowReview (wfrom wto : ℤ) (h : HistEvent) : Bool :=
  h.status == "ExpertReviewed" && decide (wfrom ≤ h.atMs) && decide (h.atMs < wto)

/-- The selection performed by the `$match`/`$project`/`$match`
stages: the coarse `$match` (some event has the status, some event
is `≥ from`, some event is `< to`, and `review.inevitable` does not
exist — an existence test, not a truth test), followed by the exact
re-check that some single event satisfies all conditions at once
(`historyArr` not of size 0). -/
def windowFilter (wfrom wto : ℤ) (s : Submission) : Bool :=
  (s.history.any (fun h => h.status == "ExpertReviewed")
    && s.history.any (fun h => decide (wfrom ≤ h.atMs))
    && s.history.any (fun h => decide (h.atMs < wto))
    && decide (s.review.inevitable = none))
  && !(s.history.filter (isInWindowReview wfrom wto)).isEmpty

/-- The submissions entering both `$group` stages. -/
def filteredSubs (wfrom wto : ℤ) (db : List Submission) : List Submission :=
  db.filter (windowFilter wfrom wto)

/-- The projected `pass` indicator:
`$cond: [{$eq: ['$review.pass', true]}, 1, 0]`. -/
def passInd (s : Submission) : ℕ :=
  if s.review.pass = some true then 1 else 0

/-- The filtered submissions of one job. -/
def jobSubs (subs : List Submission) (j : ℕ) : List Submission :=
  subs.filter (fun s => decide (s.job = j))

/-- `total: {$sum: 1}` of the per-job group. -/
def jobTotal (subs : List Submission) (j : ℕ) : ℕ :=
  (jobSubs subs j).length

/-- `pass: {$sum: "$pass"}` of the per-job group. -/
def jobPass (subs : List Submission) (j : ℕ) : ℕ :=
  ((jobSubs subs j).map passInd).sum

/-- One entry of the `subsPerJobs` map built by the `reduce` at
lines 148-155: total, pass and their ratio. -/
structure JobBaseline where
  total : ℕ
  pass : ℕ
  approvalRatio : ℚ
deriving DecidableEq

/-- The `subsPerJobs` map: a key exists exactly for the jobs having
at least one filtered submission (one `$group` row per such job). -/
def subsPerJobs (subs : List Submission) (j : ℕ) : Option JobBaseline :=
  if jobTotal subs j = 0 then none
  else some ⟨jobTotal subs j, jobPass subs j, (jobPass subs j : ℚ) / (jobTotal subs j : ℚ)⟩

/-- The filtered submissions of one (recruiter, job) group. -/
def agentJobSubs (subs : List Submission) (a j : ℕ) : List Submission :=
  (jobSubs subs j).filter (fun s => decide (s.recruiter = a))

/-- `total` of the (recruiter, job) group. -/
def agentJobTotal (subs : List Submission) (a j : ℕ) : ℕ :=
  (agentJobSubs subs a j).length

/-- `pass` of the (recruiter, job) group. -/
def agentJobPass (subs : List Submission) (a j : ℕ) : ℕ :=
  ((agentJobSubs subs a j).map passInd).sum

/-- The set of agents having a filtered submission on job `j`. -/
def agentsOf (subs : List Submission) (j : ℕ) : Finset ℕ :=
  ((jobSubs subs j).map (·.recruiter)).toFinset

/-- Partitioning a summed projection of a list of submissions by
recruiter over any set containing all its recruiters. -/
theorem sum_filter_recruiter (L : List Submission) (f : Submission → ℕ) (A : Finset ℕ)
    (hA : ∀ s ∈ L, s.recruiter ∈ A) :
    (∑ a ∈ A, ((L.filter (fun s => decide (s.recruiter = a))).map f).sum)
      = (L.map f).sum := by
  induction L with
  | nil => simp
  | cons s L ih =>
    have hs : s.recruiter ∈ A := hA s (List.mem_cons_self s L)
    have hL : ∀ x ∈ L, x.recruiter ∈ A := fun x hx => hA x (List.mem_cons_of_mem s hx)
    have hsplit : ∀ a ∈ A,
        (((s :: L).filter (fun x => decide (x.recruiter = a))).map f).sum
          = (if s.recruiter = a then f s else 0)
            + ((L.filter (fun x => decide (x.recruiter = a))).map f).sum := by
      intro a _
      by_cases h : s.recruiter = a
      · simp [List.filter_cons, h]
      · simp [List.filter_cons, h]
    rw [Finset.sum_congr rfl hsplit, Finset.sum_add_distrib, ih hL,
      Finset.sum_ite_eq, if_pos hs]
    simp

/-- Mapping every element to 1 and summing counts the length. -/
theorem sum_map_one (l : List Submission) : (l.map (fun _ => (1 : ℕ))).sum = l.length := by
  induction l with
  | nil => rfl
  | cons x l ih => simp [ih, Nat.add_comm]

/-- Every submission of a job has its recruiter among the job's agents. -/
theorem mem_agentsOf (subs : List Submission) (j : ℕ) :
    ∀ s ∈ jobSubs subs j, s.recruiter ∈ agentsOf subs j := by
  intro s hs
  unfold agentsOf
  rw [List.mem_toFinset, List.mem_map]
  exact ⟨s, hs, rfl⟩

/-- The per-agent pass counts of one job sum to that job's pass count. -/
theorem sum_agentJobPass (subs : List Submission) (j : ℕ) :
    ∑ a ∈ agentsOf subs j, agentJobPass subs a j = jobPass subs j :=
  sum_filter_recruiter (jobSubs subs j) passInd (agentsOf subs j) (mem_agentsOf subs j)

/-- The per-agent totals of one job sum to that job's total. -/
theorem sum_agentJobTotal (subs : List Submission) (j : ℕ) :
    ∑ a ∈ agentsOf subs j, agentJobTotal subs a j = jobTotal subs j := by
  have h := sum_filter_recruiter (jobSubs subs j) (fun _ => 1) (agentsOf subs j)
    (mem_agentsOf subs j)
  unfold agentJobTotal agentJobSubs jobTotal
  calc ∑ a ∈ agentsOf subs j, ((jobSubs subs j).filter (fun s => decide (s.recruiter = a))).length
      = ∑ a ∈ agentsOf subs j,
          (((jobSubs subs j).filter (fun s => decide (s.recruiter = a))).map (fun _ => 1)).sum := by
        exact Finset.sum_congr rfl (fun a _ => (sum_map_one _).symm)
    _ = ((jobSubs subs j).map (fun _ => 1)).sum := h
    _ = (jobSubs subs j).length := sum_map_one _

/-- C5: for every fixed job present in the baseline, the sum over
all agents working that job of `pass − total × approvalRatio` is
exactly zero in rational arithmetic. -/
theorem job_delta_conservation (wfrom wto : ℤ) (db : List Submission) (j : ℕ)
    (bl : JobBaseline)
    (hbl : subsPerJobs (filteredSubs wfrom wto db) j = some bl) :
    ∑ a ∈ agentsOf (filteredSubs wfrom wto db) j,
      ((agentJobPass (filteredSubs wfrom wto db) a j : ℚ)
        - (agentJobTotal (filteredSubs wfrom wto db) a j : ℚ) * bl.approvalRatio) = 0 := by
  set subs := filteredSubs wfrom wto db with hsubs
  unfold subsPerJobs at hbl
  by_cases h0 : jobTotal subs j = 0
  · rw [if_pos h0] at hbl; exact absurd hbl (by simp)
  · rw [if_neg h0] at hbl
    have hratio : bl.approvalRatio = (jobPass subs j : ℚ) / (jobTotal subs j : ℚ) := by
      cases hbl; rfl
    have hT : ((jobTotal subs j : ℕ) : ℚ) ≠ 0 := by exact_mod_cast h0
    rw [Finset.sum_sub_distrib, ← Finset.sum_mul]
    have hp : (∑ a ∈ agentsOf subs j, (agentJobPass subs a j : ℚ))
        = (jobPass subs j : ℚ) := by
      rw [← Nat.cast_sum, sum_agentJobPass]
    have ht : (∑ a ∈ agentsOf subs j, (agentJobTotal subs a j : ℚ))
        = (jobTotal subs j : ℚ) := by
      rw [← Nat.cast_sum, sum_agentJobTotal]
    rw [hp, ht, hratio]
    field_simp

/-- Two submissions for one job in the window: agent 1 passes,
agent 2 fails; the baseline ratio is 1/2. -/
def subPass : Submission := ⟨1, 1, ⟨some true, none⟩, 0, [⟨"ExpertReviewed", 3⟩]⟩

/-- The failing submission of agent 2 on the same job. -/
def subFail : Submission := ⟨1, 2, ⟨some false, none⟩, 0, [⟨"ExpertReviewed", 4⟩]⟩

/-- A two-submission store used by the conservation witness. -/
def dbTwo : List Submission := [subPass, subFail]

/-- The baseline of job 1 over `dbTwo`: two submissions, one pass. -/
theorem dbTwo_baseline : subsPerJobs (filteredSubs 0 10 dbTwo) 1 = some ⟨2, 1, 1 / 2⟩ := by
  have ht : jobTotal (filteredSubs 0 10 dbTwo) 1 = 2 := by decide
  have hp : jobPass (filteredSubs 0 10 dbTwo) 1 = 1 := by decide
  unfold subsPerJobs
  rw [ht, hp]
  norm_num

/-- Witness for `job_delta_conservation` on `dbTwo`. -/
theorem job_delta_conservation_witness :
    subsPerJobs (filteredSubs 0 10 dbTwo) 1 = some ⟨2, 1, 1 / 2⟩ ∧
    ∑ a ∈ agentsOf (filteredSubs 0 10 dbTwo) 1,
      ((agentJobPass (filteredSubs 0 10 dbTwo) a 1 : ℚ)
        - (agentJobTotal (filteredSubs 0 10 dbTwo) a 1 : ℚ)
          * (JobBaseline.mk 2 1 (1 / 2)).approvalRatio) = 0 :=
  ⟨dbTwo_baseline, job_delta_conservation 0 10 dbTwo 1 ⟨2, 1, 1 / 2⟩ dbTwo_baseline⟩

/-- C9: a submission whose review carries the `inevitable` field at
all — whatever its value, including `false` — fails the filter and
is excluded from the store seen by both aggregations. -/
theorem inevitable_field_excludes (wfrom wto : ℤ) (db : List Submission)
    (s : Submission) (b : Bool) (hb : s.review.inevitable = some b) :
    windowFilter wfrom wto s = false ∧
    filteredSubs wfrom wto (s :: db) = filteredSubs wfrom wto db := by
  have hw : windowFilter wfrom wto s = false := by
    unfold windowFilter
    simp [hb]
  refine ⟨hw, ?_⟩
  unfold filteredSubs
  rw [List.filter_cons, hw]
  simp

/-- Witness for `inevitable_field_excludes`: a submission with an
in-window `ExpertReviewed` event, a passing review, and
`review.inevitable = false` is excluded. -/
def subInevFalse : Submission := ⟨1, 1, ⟨some true, some false⟩, 0, [⟨"ExpertReviewed", 5⟩]⟩

/-- The concrete exclusion of `subInevFalse`. -/
theorem inevitable_field_excludes_witness :
    subInevFalse.review.inevitable = some false ∧
    (windowFilter 0 10 subInevFalse = false ∧
     filteredSubs 0 10 [subInevFalse] = filteredSubs 0 10 []) :=
  ⟨rfl, inevitable_field_excludes 0 10 [] subInevFalse false rfl⟩

/-! ### The streaming fold of `computeRecruitersScore` (lines 144-201) -/

/-- One row of the agent-sorted cursor: a `(recruiter, job)` group
with its `total` and `pass` sums. -/
structure AgentJobStat where
  recruiter : ℕ
  job : ℕ
  total : ℕ
  pass : ℕ
deriving DecidableEq

/-- A flush handed to `computeAndSaveScore`:
`(recruiter, totalSubmissions, points)`. -/
abbrev Flush := ℕ × ℕ × ℚ

/-- The summary-merging step at lines 181-187.  Note the key
mismatch of the source: the object written holds keys `inserted`,
`matchedCount`, `modified`, `deleted`, `upserted`, while the next
merge reads `insertedCount`, `matchedCount`, `modifiedCount`,
`deletedCount`, `upsertedCount` from it. -/
def mergeResults (results upd : JSObj) : JSObj :=
  [("inserted", orZero (getF results "insertedCount") + orZero (getF upd "insertedCount")),
   ("matchedCount", orZero (getF results "matchedCount") + orZero (getF upd "matchedCount")),
   ("modified", orZero (getF results "modifiedCount") + orZero (getF upd "modifiedCount")),
   ("deleted", orZero (getF results "deletedCount") + orZero (getF upd "deletedCount")),
   ("upserted", orZero (getF results "upsertedCount") + orZero (getF upd "upsertedCount"))]

/-- The `do … while` cursor loop: on each row, if the recruiter
changed, flush the accumulator through `computeAndSaveScore` and
merge the result object (accessing a property of an `undefined`
result throws a `TypeError`); then accumulate the row's total and
its delta against the job baseline (a missing baseline key also
throws).  On the terminal `null` row the final accumulator is
flushed once.  The emitted flushes are returned with the summary. -/
noncomputable def scoringFold (env : Env) (spj : ℕ → Option JobBaseline) :
    List AgentJobStat → Option ℕ → ℕ → ℚ → JSObj → Except String (List Flush × JSObj)
  | [], lastRecruiter, totalSubmissions, points, results =>
    match lastRecruiter with
    | none => .ok ([], results)
    | some last =>
      match computeAndSaveScore env last totalSubmissions points with
      | none => .error "TypeError"
      | some upd => .ok ([(last, totalSubmissions, points)], mergeResults results upd)
  | r :: rest, lastRecruiter, totalSubmissions, points, results =>
    match lastRecruiter with
    | none =>
      match spj r.job with
      | none => .error "TypeError"
      | some bl =>
        scoringFold env spj rest (some r.recruiter) (totalSubmissions + r.total)
          (points + ((r.pass : ℚ) - (r.total : ℚ) * bl.approvalRatio)) results
    | some last =>
      if last = r.recruiter then
        match spj r.job with
        | none => .error "TypeError"
        | some bl =>
          scoringFold env spj rest (some last) (totalSubmissions + r.total)
            (points + ((r.pass : ℚ) - (r.total : ℚ) * bl.approvalRatio)) results
      else
        match computeAndSaveScore env last totalSubmissions points with
        | none => .error "TypeError"
        | some upd =>
          match spj r.job with
          | none => .error "TypeError"
          | some bl =>
            match scoringFold env spj rest (some r.recruiter) r.total
                ((r.pass : ℚ) - (r.total : ℚ) * bl.approvalRatio)
                (mergeResults results upd) with
            | .error e => .error e
            | .ok (fl, res) => .ok ((last, totalSubmissions, points) :: fl, res)

/-- The agent-sorted stream of `(recruiter, job)` rows produced by
`retrieveRecruitersSubmissions()` with its `$sort` on recruiter. -/
def agentJobStream (subs : List Submission) : List AgentJobStat :=
  (((subs.map (·.recruiter)).dedup).insertionSort (· ≤ ·)).flatMap (fun a =>
    (((subs.filter (fun s => decide (s.recruiter = a))).map (·.job)).dedup).map (fun j =>
      ⟨a, j, agentJobTotal subs a j, agentJobPass subs a j⟩))

/-- `computeRecruitersScore`: materialize the per-job baselines,
then drive the fold over the agent-sorted stream starting from an
unset `lastRecruiter`, zero accumulators and the empty `results`. -/
noncomputable def computeRecruitersScore (env : Env) (wfrom wto : ℤ)
    (db : List Submission) : Except String (List Flush × JSObj) :=
  scoringFold env (subsPerJobs (filteredSubs wfrom wto db))
    (agentJobStream (filteredSubs wfrom wto db)) none 0 0 []

/-- The `run()` entry point: fixes `now` and runs over the window
`[now − 1 week, now)`. -/
noncomputable def runScoring (env : Env) (now : ℤ) (db : List Submission) :
    Except String (List Flush × JSObj) :=
  computeRecruitersScore env (windowFrom now) now db

/-- C10: when no submission survives the filter, the run makes no
budget read or write (its result does not depend on the budget
store at all), emits no flush, and resolves with the literal empty
object `{}` — carrying none of the five counter fields — rather
than a zero-valued summary. -/
theorem empty_stream_returns_empty_object (env : Env) (wfrom wto : ℤ)
    (db : List Submission) (h : filteredSubs wfrom wto db = []) :
    computeRecruitersScore env wfrom wto db = .ok ([], []) ∧
    (∀ env' : Env, computeRecruitersScore env' wfrom wto db = .ok ([], [])) ∧
    (∀ k, getF [] k = none) := by
  have hall : ∀ env' : Env, computeRecruitersScore env' wfrom wto db = .ok ([], []) := by
    intro env'
    unfold computeRecruitersScore
    rw [h]
    rfl
  exact ⟨hall env, hall, fun k => rfl⟩

/-- A submission excluded by the `inevitable` flag, giving an empty
filtered stream over a nonempty store. -/
def subInevTrue : Submission := ⟨1, 1, ⟨some true, some true⟩, 0, [⟨"ExpertReviewed", 5⟩]⟩

/-- Witness for `empty_stream_returns_empty_object`, evaluated at
two different environments to exhibit store-independence. -/
theorem empty_stream_returns_empty_object_witness :
    filteredSubs 0 10 [subInevTrue] = [] ∧
    computeRecruitersScore envOk 0 10 [subInevTrue] = .ok ([], []) ∧
    computeRecruitersScore envFloor 0 10 [subInevTrue] = .ok ([], []) ∧
    getF [] "inserted" = none ∧ getF [] "matchedCount" = none ∧
    getF [] "modified" = none ∧ getF [] "deleted" = none ∧ getF [] "upserted" = none :=
  ⟨by decide,
   (empty_stream_returns_empty_object envOk 0 10 [subInevTrue] (by decide)).1,
   (empty_stream_returns_empty_object envFloor 0 10 [subInevTrue] (by decide)).1,
   rfl, rfl, rfl, rfl, rfl⟩

/-- A baseline map giving every job the ratio 1/2. -/
def spjHalf : ℕ → Option JobBaseline := fun _ => some ⟨4, 2, 1 / 2⟩

/-- A two-agent stream: each agent has one `(recruiter, job)` row
with 2 submissions, 1 pass (delta 0 against ratio 1/2). -/
def streamTwo : List AgentJobStat := [⟨1, 7, 2, 1⟩, ⟨2, 7, 2, 1⟩]

/-- C1 (code bug): on a two-flush run whose every write outcome
reports `insertedCount = 1` (and likewise for the other counters),
the returned summary accumulates only `matchedCount` (= 2).  The
other four counters hold only the last flush's value (= 1), because
each merge reads keys (`insertedCount`, `modifiedCount`, …) that
the previous merge never wrote (it wrote `inserted`, `modified`, …). -/
theorem run_summary_drops_counters :
    scoringFold envOk spjHalf streamTwo none 0 0 [] =
      .ok ([(1, 2, 0), (2, 2, 0)],
        [("inserted", 1), ("matchedCount", 2), ("modified", 1),
         ("deleted", 1), ("upserted", 1)]) := by
  have h1 : computeAndSaveScore envOk 1 2 0 = some outcomeOne := rfl
  have h2 : computeAndSaveScore envOk 2 2 0 = some outcomeOne := rfl
  have hm1 : mergeResults [] outcomeOne =
      [("inserted", 1), ("matchedCount", 1), ("modified", 1),
       ("deleted", 1), ("upserted", 1)] := rfl
  have hm2 : mergeResults
      [("inserted", 1), ("matchedCount", 1), ("modified", 1),
       ("deleted", 1), ("upserted", 1)] outcomeOne =
      [("inserted", 1), ("matchedCount", 2), ("modified", 1),
       ("deleted", 1), ("upserted", 1)] := rfl
  norm_num [scoringFold, streamTwo, spjHalf, h1, h2, hm1, hm2]

/-- An environment where agent 1 has no budget record. -/
def envMissing : Env :=
  ⟨fun r => if r = 1 then none else some 5, fun _ _ => some outcomeOne⟩

/-- An environment where agent 1's budget save rejects. -/
def envSaveFail : Env :=
  ⟨fun _ => some 5, fun r _ => if r = 1 then none else some outcomeOne⟩

/-- C2 (code bug): a missing budget record (AgentNotFound) or a
failed save for the first flushed agent makes `computeAndSaveScore`
resolve `undefined`; the summary merge then dereferences it and the
whole run aborts with a TypeError — the second agent is never
processed and no summary is returned. -/
theorem agent_error_aborts_run :
    scoringFold envMissing spjHalf streamTwo none 0 0 [] = .error "TypeError" ∧
    scoringFold envSaveFail spjHalf streamTwo none 0 0 [] = .error "TypeError" := by
  have h1 : computeAndSaveScore envMissing 1 2 0 = none := rfl
  have h2 : computeAndSaveScore envSaveFail 1 2 0 = none := rfl
  constructor
  · norm_num [scoringFold, streamTwo, spjHalf, h1]
  · norm_num [scoringFold, streamTwo, spjHalf, h2]

/-! ### Characterization of the fold's flushes (claim C4) -/

/-- The delta accumulated for one stream row:
`r.pass − r.total × subsPerJobs[r.job].approvalRatio`. -/
def deltaOf (spj : ℕ → Option JobBaseline) (r : AgentJobStat) : ℚ :=
  match spj r.job with
  | some bl => (r.pass : ℚ) - (r.total : ℚ) * bl.approvalRatio
  | none => 0

/-- The total submissions of one agent over a stream. -/
def groupTotal (stream : List AgentJobStat) (a : ℕ) : ℕ :=
  ((stream.filter (fun x => decide (x.recruiter = a))).map (·.total)).sum

/-- The accumulated points of one agent over a stream. -/
def groupPoints (spj : ℕ → Option JobBaseline) (stream : List AgentJobStat) (a : ℕ) : ℚ :=
  ((stream.filter (fun x => decide (x.recruiter = a))).map (deltaOf spj)).sum

/-- The effect-free skeleton of the fold: the flushes it emits,
from a given accumulator state (`none` = no current agent yet). -/
def flushesSpec (spj : ℕ → Option JobBaseline) :
    List AgentJobStat → Option Flush → List Flush
  | [], none => []
  | [], some acc => [acc]
  | r :: rest, none =>
    flushesSpec spj rest (some (r.recruiter, r.total, deltaOf spj r))
  | r :: rest, some (a, t, p) =>
    if a = r.recruiter then
      flushesSpec spj rest (some (a, t + r.total, p + deltaOf spj r))
    else
      (a, t, p) :: flushesSpec spj rest (some (r.recruiter, r.total, deltaOf spj r))

/-- When every budget read and write succeeds, so does every flush. -/
theorem computeAndSaveScore_isSome (env : Env)
    (hpref : ∀ r, (env.pref r).isSome) (hsave : ∀ r v, (env.save r v).isSome)
    (a t : ℕ) (p : ℚ) : ∃ u, computeAndSaveScore env a t p = some u := by
  obtain ⟨m, hm⟩ := Option.isSome_iff_exists.mp (hpref a)
  unfold computeAndSaveScore
  rw [hm]
  exact Option.isSome_iff_exists.mp (hsave a _)

/-- Effect erasure, from a set accumulator: when the store is total
and every row's job has a baseline, the fold succeeds and emits
exactly the flushes of `flushesSpec`. -/
theorem scoringFold_ok_some (env : Env) (spj : ℕ → Option JobBaseline)
    (hpref : ∀ r, (env.pref r).isSome) (hsave : ∀ r v, (env.save r v).isSome) :
    ∀ (stream : List AgentJobStat) (a t : ℕ) (p : ℚ) (results : JSObj),
      (∀ r ∈ stream, (spj r.job).isSome) →
      ∃ res, scoringFold env spj stream (some a) t p results
        = .ok (flushesSpec spj stream (some (a, t, p)), res) := by
  intro stream
  induction stream with
  | nil =>
    intro a t p results _
    obtain ⟨u, hu⟩ := computeAndSaveScore_isSome env hpref hsave a t p
    refine ⟨mergeResults results u, ?_⟩
    simp only [scoringFold, flushesSpec, hu]
  | cons r rest ih =>
    intro a t p results hjobs
    obtain ⟨bl, hbl⟩ := Option.isSome_iff_exists.mp (hjobs r (List.mem_cons_self r rest))
    have hjr : ∀ x ∈ rest, (spj x.job).isSome :=
      fun x hx => hjobs x (List.mem_cons_of_mem r hx)
    have hdelta : deltaOf spj r = (r.pass : ℚ) - (r.total : ℚ) * bl.approvalRatio := by
      unfold deltaOf; rw [hbl]
    by_cases har : a = r.recruiter
    · obtain ⟨res, hres⟩ := ih a (t + r.total)
        (p + ((r.pass : ℚ) - (r.total : ℚ) * bl.approvalRatio)) results hjr
      refine ⟨res, ?_⟩
      simp only [scoringFold, hbl, if_pos har, hres, flushesSpec, hdelta]
    · obtain ⟨u, hu⟩ := computeAndSaveScore_isSome env hpref hsave a t p
      obtain ⟨res, hres⟩ := ih r.recruiter r.total
        ((r.pass : ℚ) - (r.total : ℚ) * bl.approvalRatio) (mergeResults results u) hjr
      refine ⟨res, ?_⟩
      simp only [scoringFold, hbl, if_neg har, hu, hres, flushesSpec, hdelta]

/-- Effect erasure from the initial state. -/
theorem scoringFold_ok_none (env : Env) (spj : ℕ → Option JobBaseline)
    (hpref : ∀ r, (env.pref r).isSome) (hsave : ∀ r v, (env.save r v).isSome)
    (stream : List AgentJobStat) (results : JSObj)
    (hjobs : ∀ r ∈ stream, (spj r.job).isSome) :
    ∃ res, scoringFold env spj stream none 0 0 results
      = .ok (flushesSpec spj stream none, res) := by
  cases stream with
  | nil => exact ⟨results, rfl⟩
  | cons r rest =>
    obtain ⟨bl, hbl⟩ := Option.isSome_iff_exists.mp (hjobs r (List.mem_cons_self r rest))
    have hjr : ∀ x ∈ rest, (spj x.job).isSome :=
      fun x hx => hjobs x (List.mem_cons_of_mem r hx)
    have hdelta : deltaOf spj r = (r.pass : ℚ) - (r.total : ℚ) * bl.approvalRatio := by
      unfold deltaOf; rw [hbl]
    obtain ⟨res, hres⟩ := scoringFold_ok_some env spj hpref hsave rest r.recruiter
      (0 + r.total) (0 + ((r.pass : ℚ) - (r.total : ℚ) * bl.approvalRatio)) results hjr
    refine ⟨res, ?_⟩
    simp only [zero_add] at hres
    simp only [scoringFold, hbl, hres, flushesSpec, hdelta, zero_add]

/-- Group sums over a row of the group's own agent. -/
theorem groupTotal_cons_self (x : AgentJobStat) (xs : List AgentJobStat) (a : ℕ)
    (h : x.recruiter = a) : groupTotal (x :: xs) a = x.total + groupTotal xs a := by
  unfold groupTotal
  simp [List.filter_cons, h]

/-- Group sums skip a row of a different agent. -/
theorem groupTotal_cons_ne (x : AgentJobStat) (xs : List AgentJobStat) (a : ℕ)
    (h : ¬ x.recruiter = a) : groupTotal (x :: xs) a = groupTotal xs a := by
  unfold groupTotal
  simp [List.filter_cons, h]

/-- Point sums over a row of the group's own agent. -/
theorem groupPoints_cons_self (spj : ℕ → Option JobBaseline) (x : AgentJobStat)
    (xs : List AgentJobStat) (a : ℕ) (h : x.recruiter = a) :
    groupPoints spj (x :: xs) a = deltaOf spj x + groupPoints spj xs a := by
  unfold groupPoints
  simp [List.filter_cons, h]

/-- Point sums skip a row of a different agent. -/
theorem groupPoints_cons_ne (spj : ℕ → Option JobBaseline) (x : AgentJobStat)
    (xs : List AgentJobStat) (a : ℕ) (h : ¬ x.recruiter = a) :
    groupPoints spj (x :: xs) a = groupPoints spj xs a := by
  unfold groupPoints
  simp [List.filter_cons, h]

/-- On a sorted stream whose recruiters are all `≥ a`, the flushes
from the accumulator `(a, t, p)` are: one flush for `a` carrying the
seed plus `a`'s group sums, followed by the flushes of the stream
with `a`'s rows removed. -/
theorem flushesSpec_sorted_run (spj : ℕ → Option JobBaseline) :
    ∀ (stream : List AgentJobStat) (a t : ℕ) (p : ℚ),
      List.Pairwise (fun x y => x.recruiter ≤ y.recruiter) stream →
      (∀ x ∈ stream, a ≤ x.recruiter) →
      flushesSpec spj stream (some (a, t, p))
        = (a, t + groupTotal stream a, p + groupPoints spj stream a)
            :: flushesSpec spj (stream.filter (fun x => !decide (x.recruiter = a))) none := by
  intro stream
  induction stream with
  | nil =>
    intro a t p _ _
    simp [flushesSpec, groupTotal, groupPoints]
  | cons x xs ih =>
    intro a t p hpw hge
    obtain ⟨hx, hxs⟩ := List.pairwise_cons.mp hpw
    by_cases h : a = x.recruiter
    · have hgexs : ∀ y ∈ xs, a ≤ y.recruiter := fun y hy => h ▸ hx y hy
      have hrec := ih a (t + x.total) (p + deltaOf spj x) hxs hgexs
      simp only [flushesSpec, if_pos h, hrec,
        groupTotal_cons_self x xs a h.symm, groupPoints_cons_self spj x xs a h.symm]
      have htail : List.filter (fun y => !decide (y.recruiter = a)) (x :: xs)
          = List.filter (fun y => !decide (y.recruiter = a)) xs := by
        simp [List.filter_cons, h.symm]
      rw [htail, Nat.add_assoc, add_assoc]
    · have hax : a < x.recruiter := lt_of_le_of_ne (hge x (List.mem_cons_self x xs)) h
      have hnone : ∀ y ∈ x :: xs, ¬ y.recruiter = a := by
        intro y hy
        rcases List.mem_cons.mp hy with rfl | hy'
        · exact fun hc => h hc.symm
        · intro hc
          have := hx y hy'
          rw [hc] at this
          exact absurd (lt_of_lt_of_le hax this) (lt_irrefl a)
      have hfilter_nil : (x :: xs).filter (fun y => decide (y.recruiter = a)) = [] := by
        rw [List.filter_eq_nil_iff]
        intro y hy
        simpa using hnone y hy
      have hfilter_all : (x :: xs).filter (fun y => !decide (y.recruiter = a)) = x :: xs := by
        rw [List.filter_eq_self]
        intro y hy
        simpa using hnone y hy
      have hgt : groupTotal (x :: xs) a = 0 := by
        unfold groupTotal; rw [hfilter_nil]; rfl
      have hgp : groupPoints spj (x :: xs) a = 0 := by
        unfold groupPoints; rw [hfilter_nil]; rfl
      simp only [flushesSpec, if_neg h, hgt, hgp, hfilter_all, Nat.add_zero, add_zero]

/-- On a sorted stream, the emitted flushes have pairwise-distinct
agents, exactly the agents of the stream, and each carries its
agent's group sums. -/
theorem flushesSpec_char (spj : ℕ → Option JobBaseline) :
    ∀ (stream : List AgentJobStat),
      List.Pairwise (fun x y => x.recruiter ≤ y.recruiter) stream →
      ((flushesSpec spj stream none).map (·.1)).Nodup ∧
      (∀ b, b ∈ (flushesSpec spj stream none).map (·.1) ↔ b ∈ stream.map (·.recruiter)) ∧
      (∀ f ∈ flushesSpec spj stream none,
        f.2.1 = groupTotal stream f.1 ∧ f.2.2 = groupPoints spj stream f.1) := by
  have main : ∀ (n : ℕ) (stream : List AgentJobStat), stream.length = n →
      List.Pairwise (fun x y => x.recruiter ≤ y.recruiter) stream →
      ((flushesSpec spj stream none).map (·.1)).Nodup ∧
      (∀ b, b ∈ (flushesSpec spj stream none).map (·.1) ↔ b ∈ stream.map (·.recruiter)) ∧
      (∀ f ∈ flushesSpec spj stream none,
        f.2.1 = groupTotal stream f.1 ∧ f.2.2 = groupPoints spj stream f.1) := by
    intro n
    induction n using Nat.strong_induction_on with
    | _ n IH =>
      intro stream hlen hpw
      cases stream with
      | nil => simp [flushesSpec]
      | cons r rest =>
        obtain ⟨hx, hxs⟩ := List.pairwise_cons.mp hpw
        have hM := flushesSpec_sorted_run spj rest r.recruiter r.total (deltaOf spj r) hxs hx
        set L' := rest.filter (fun y => !decide (y.recruiter = r.recruiter)) with hLdef
        have hpwL' : List.Pairwise (fun x y => x.recruiter ≤ y.recruiter) L' := hxs.filter _
        have hlenL' : L'.length < n := by
          rw [← hlen]
          have h1 : L'.length ≤ rest.length := List.length_filter_le _ _
          simpa using Nat.lt_succ_of_le h1
        obtain ⟨hnd', hmem', hsum'⟩ := IH L'.length hlenL' L' rfl hpwL'
        have hflush : flushesSpec spj (r :: rest) none
            = (r.recruiter, r.total + groupTotal rest r.recruiter,
               deltaOf spj r + groupPoints spj rest r.recruiter)
                :: flushesSpec spj L' none := by
          simp only [flushesSpec]
          exact hM
        have hLne : ∀ b ∈ L'.map (·.recruiter), b ≠ r.recruiter := by
          intro b hb
          obtain ⟨y, hy, hyb⟩ := List.mem_map.mp hb
          have h2 : ¬ y.recruiter = r.recruiter := by
            simpa using (List.mem_filter.mp hy).2
          exact fun hc => h2 (by rw [hyb, hc])
        have hmemL' : ∀ b, b ∈ L'.map (·.recruiter)
            ↔ b ∈ rest.map (·.recruiter) ∧ b ≠ r.recruiter := by
          intro b
          constructor
          · intro hb
            obtain ⟨y, hy, hyb⟩ := List.mem_map.mp hb
            exact ⟨hyb ▸ List.mem_map_of_mem _ (List.mem_filter.mp hy).1, hLne b hb⟩
          · rintro ⟨hb, hbne⟩
            obtain ⟨y, hy, hyb⟩ := List.mem_map.mp hb
            refine List.mem_map.mpr ⟨y, List.mem_filter.mpr ⟨hy, ?_⟩, hyb⟩
            simpa using fun hc => hbne (hyb.symm.trans hc)
        rw [hflush]
        refine ⟨?_, ?_, ?_⟩
        · simp only [List.map_cons]
          rw [List.nodup_cons]
          exact ⟨fun hin => hLne r.recruiter ((hmem' r.recruiter).mp hin) rfl, hnd'⟩
        · intro b
          simp only [List.map_cons, List.mem_cons]
          rw [hmem' b, hmemL' b]
          by_cases hb : b = r.recruiter
          · simp [hb]
          · simp [hb]
        · intro f hf
          rcases List.mem_cons.mp hf with rfl | hf'
          · refine ⟨?_, ?_⟩
            · show r.total + groupTotal rest r.recruiter = groupTotal (r :: rest) r.recruiter
              rw [groupTotal_cons_self r rest r.recruiter rfl]
            · show deltaOf spj r + groupPoints spj rest r.recruiter
                = groupPoints spj (r :: rest) r.recruiter
              rw [groupPoints_cons_self spj r rest r.recruiter rfl]
          · have hsum := hsum' f hf'
            have hf1 : f.1 ∈ L'.map (·.recruiter) :=
              (hmem' f.1).mp (List.mem_map_of_mem _ hf')
            have hfne : ¬ r.recruiter = f.1 := fun hc => hLne f.1 hf1 hc.symm
            have hfilt : L'.filter (fun y => decide (y.recruiter = f.1))
                = rest.filter (fun y => decide (y.recruiter = f.1)) := by
              rw [hLdef, List.filter_filter]
              apply List.filter_congr
              intro y hy
              by_cases hyf : y.recruiter = f.1
              · simp [hyf]
                exact fun hc => hfne hc.symm
              · simp [hyf]
            have hgt' : groupTotal L' f.1 = groupTotal rest f.1 := by
              unfold groupTotal; rw [hfilt]
            have hgp' : groupPoints spj L' f.1 = groupPoints spj rest f.1 := by
              unfold groupPoints; rw [hfilt]
            exact ⟨by rw [hsum.1, hgt', groupTotal_cons_ne r rest f.1 hfne],
                   by rw [hsum.2, hgp', groupPoints_cons_ne spj r rest f.1 hfne]⟩
  exact fun stream hpw => main stream.length stream rfl hpw

/-- C4: on a stream sorted ascending by agent id, with every row's
job in the baseline and a total budget store, the fold succeeds and
emits exactly one flush per distinct agent — including the final
flush at end-of-stream — each flush carrying that agent's
accumulated `totalSubmissions` and `netPoints`. -/
theorem streaming_fold_flushes (env : Env) (spj : ℕ → Option JobBaseline)
    (stream : List AgentJobStat)
    (hsorted : List.Pairwise (fun x y => x.recruiter ≤ y.recruiter) stream)
    (hne : stream ≠ [])
    (hjobs : ∀ r ∈ stream, (spj r.job).isSome)
    (hpref : ∀ r, (env.pref r).isSome)
    (hsave : ∀ r v, (env.save r v).isSome) :
    ∃ fl res, scoringFold env spj stream none 0 0 [] = .ok (fl, res) ∧
      fl.length = (stream.map (·.recruiter)).dedup.length ∧
      1 ≤ fl.length ∧
      (fl.map (·.1)).Nodup ∧
      (∀ b, b ∈ fl.map (·.1) ↔ b ∈ stream.map (·.recruiter)) ∧
      (∀ f ∈ fl, f.2.1 = groupTotal stream f.1 ∧ f.2.2 = groupPoints spj stream f.1) := by
  obtain ⟨res, hres⟩ := scoringFold_ok_none env spj hpref hsave stream [] hjobs
  obtain ⟨hnd, hmem, hsum⟩ := flushesSpec_char spj stream hsorted
  refine ⟨flushesSpec spj stream none, res, hres, ?_, ?_, hnd, hmem, hsum⟩
  · have h1 : ((flushesSpec spj stream none).map (·.1)).toFinset
        = (stream.map (·.recruiter)).toFinset := by
      ext b
      simp only [List.mem_toFinset]
      exact hmem b
    have h2 : (flushesSpec spj stream none).length
        = ((flushesSpec spj stream none).map (·.1)).length :=
      (List.length_map _ _).symm
    have h3 : ((flushesSpec spj stream none).map (·.1)).length
        = ((flushesSpec spj stream none).map (·.1)).toFinset.card :=
      (List.toFinset_card_of_nodup hnd).symm
    have h4 : (stream.map (·.recruiter)).toFinset.card
        = (stream.map (·.recruiter)).dedup.length := List.card_toFinset _
    rw [h2, h3, h1, h4]
  · have hflne : flushesSpec spj stream none ≠ [] := by
      cases stream with
      | nil => exact absurd rfl hne
      | cons r rest =>
        intro hc
        have hrmem : r.recruiter ∈ (flushesSpec spj (r :: rest) none).map (·.1) :=
          (hmem r.recruiter).mpr (by simp)
        rw [hc] at hrmem
        simp at hrmem
    exact List.length_pos.mpr hflne

/-- A sorted three-row stream with two distinct agents. -/
def streamThree : List AgentJobStat := [⟨1, 5, 2, 1⟩, ⟨1, 6, 1, 0⟩, ⟨2, 5, 3, 2⟩]

/-- Witness for `streaming_fold_flushes` on `streamThree`. -/
theorem streaming_fold_flushes_witness :
    List.Pairwise (fun x y => x.recruiter ≤ y.recruiter) streamThree ∧
    streamThree ≠ [] ∧
    (∀ r ∈ streamThree, (spjHalf r.job).isSome) ∧
    (∃ fl res, scoringFold envOk spjHalf streamThree none 0 0 [] = .ok (fl, res) ∧
      fl.length = (streamThree.map (·.recruiter)).dedup.length ∧
      1 ≤ fl.length ∧
      (fl.map (·.1)).Nodup ∧
      (∀ b, b ∈ fl.map (·.1) ↔ b ∈ streamThree.map (·.recruiter)) ∧
      (∀ f ∈ fl, f.2.1 = groupTotal streamThree f.1 ∧
        f.2.2 = groupPoints spjHalf streamThree f.1)) :=
  ⟨by decide, by decide, fun r _ => rfl,
   streaming_fold_flushes envOk spjHalf streamThree (by decide) (by decide)
     (fun r _ => rfl) (fun r => rfl) (fun r v => rfl)⟩
